import Mathlib

/-!
Verification of the verse-image text-overlay engine of the
Sunday_School_Transformation repository.

The repository contains three variants of the engine:
  * `src/backend/app.py` — `create_verse_image` (greedy word wrap + centered draw),
  * `src/create_social_graphic.py` — `draw_text_lines` / `load_fonts`,
  * `src/services/image/create_verse_overlay.py` — `create_verse_overlay`.

Glyph-width measurement (`draw.textlength`) is a property of the opened font,
so it is modelled as an explicit function parameter; all other arithmetic is
translated directly from the Python source.  Python `//` (floor division on
ints) is `Int.fdiv`; Python float division is modelled exactly over `ℚ`.
-/

namespace VerseImage

/-- Accumulator loop for `pyWords`: walks the characters, collecting the
current word in reverse in `acc`; whitespace closes the word (if any). -/
def wordsAux : List Char → List Char → List String
  | [], acc => if acc = [] then [] else [String.mk acc.reverse]
  | c :: cs, acc =>
    if c.isWhitespace then
      if acc = [] then wordsAux cs []
      else String.mk acc.reverse :: wordsAux cs []
    else wordsAux cs (c :: acc)

/-- Python `str.split()` with no separator: split on runs of whitespace,
producing no empty pieces.  Used by `create_verse_image` (`app.py` line 470:
`words = verse_text.split()`). -/
def pyWords (s : String) : List String :=
  wordsAux s.data []

/-- The greedy accumulation loop of `create_verse_image` (`app.py` lines
473–483): `cur` is `current_line`; for each further word the tentative line
`cur ++ " " ++ w` is measured, accepted while it fits, otherwise `cur` is
closed and the word seeds a new line.  After the last word the open
accumulator is appended. -/
def wrapLoop (width : String → ℚ) (maxW : ℚ) : String → List String → List String
  | cur, [] => [cur]
  | cur, w :: ws =>
    if width (cur ++ " " ++ w) ≤ maxW then
      wrapLoop width maxW (cur ++ " " ++ w) ws
    else
      cur :: wrapLoop width maxW w ws

/-- The word-wrap of `create_verse_image` (`app.py` lines 467–483).
`current_line = words[0]` raises `IndexError` when the split produces no
words, which is modelled as `none`. -/
def wrapText (width : String → ℚ) (maxW : ℚ) (text : String) :
    Option (List String) :=
  match pyWords text with
  | [] => none
  | t :: ts => some (wrapLoop width maxW t ts)

theorem wrapLoop_mem_bound (width : String → ℚ) (maxW : ℚ)
    (Q : String → Prop) :
    ∀ (ws : List String) (cur : String),
      (width cur ≤ maxW ∨ Q cur) → (∀ w ∈ ws, Q w) →
      ∀ l ∈ wrapLoop width maxW cur ws, width l ≤ maxW ∨ Q l := by
  intro ws
  induction ws with
  | nil =>
    intro cur hcur _ l hl
    simp only [wrapLoop, List.mem_singleton] at hl
    exact hl ▸ hcur
  | cons w ws ih =>
    intro cur hcur hws l hl
    simp only [wrapLoop] at hl
    by_cases hfit : width (cur ++ " " ++ w) ≤ maxW
    · rw [if_pos hfit] at hl
      exact ih (cur ++ " " ++ w) (Or.inl hfit)
        (fun v hv => hws v (List.mem_cons_of_mem _ hv)) l hl
    · rw [if_neg hfit] at hl
      rcases List.mem_cons.mp hl with h | h
      · exact h ▸ hcur
      · exact ih w (Or.inr (hws w (List.mem_cons_self w ws)))
          (fun v hv => hws v (List.mem_cons_of_mem _ hv)) l h

/-- C1: every line produced by the greedy wrap either measures within
`maxW`, or is a single unbroken word of the input (emitted whole). -/
theorem wrap_width_bound (width : String → ℚ) (maxW : ℚ) (text : String)
    (lines : List String) (h : wrapText width maxW text = some lines) :
    ∀ l ∈ lines, width l ≤ maxW ∨ l ∈ pyWords text := by
  unfold wrapText at h
  cases hw : pyWords text with
  | nil => rw [hw] at h; exact absurd h (by simp)
  | cons t ts =>
    rw [hw] at h
    have hlines : lines = wrapLoop width maxW t ts := by
      injection h with h'; exact h'.symm
    subst hlines
    exact wrapLoop_mem_bound width maxW (fun s => s ∈ t :: ts) ts t
      (Or.inr (List.mem_cons_self t ts))
      (fun w hwm => List.mem_cons_of_mem _ hwm)

/-- A concrete width measure for witnesses: one unit per character. -/
def lenWidth : String → ℚ := fun s => (s.length : ℚ)

/-- C1 witness: wrapping `"ab cd ef"` at width 5 under `lenWidth` produces
`["ab cd", "ef"]`, and the bound holds for the line `"ab cd"`. -/
theorem wrap_width_bound_witness :
    lenWidth "ab cd" ≤ 5 ∨ "ab cd" ∈ pyWords "ab cd ef" :=
  wrap_width_bound lenWidth 5 "ab cd ef" ["ab cd", "ef"] (by decide)
    "ab cd" (by decide)

/-- C2 counterexample: wrapping the empty text does not yield one empty
`WrappedLine`; `words[0]` fails, modelled as `none`. -/
theorem wrap_empty_counterexample :
    wrapText lenWidth 10 "" = none ∧
      wrapText lenWidth 10 "" ≠ some [""] := by
  refine ⟨rfl, ?_⟩
  intro h
  exact absurd h (by decide)

/-- C2 amended: for every width measure and maximum width, wrapping an empty
or whitespace-only input fails (the code indexes the first element of an
empty word list), rather than yielding a `WrappedLine` with empty text. -/
theorem wrap_empty_fails (width : String → ℚ) (maxW : ℚ) :
    wrapText width maxW "" = none ∧ wrapText width maxW "   " = none :=
  ⟨rfl, rfl⟩

/-- C9: the wrap depends only on the width-measurement results — two runs
whose measurements agree on every string produce identical wrapped lines. -/
theorem wrap_deterministic (w₁ w₂ : String → ℚ)
    (h : ∀ s, w₁ s = w₂ s) (maxW : ℚ) (text : String) :
    wrapText w₁ maxW text = wrapText w₂ maxW text := by
  have : w₁ = w₂ := funext h
  rw [this]

/-- C9 witness: two definitionally different measures with equal results
wrap `"ab cd ef"` identically. -/
theorem wrap_deterministic_witness :
    wrapText lenWidth 5 "ab cd ef" =
      wrapText (fun s => ((s.data.length : ℚ))) 5 "ab cd ef" :=
  wrap_deterministic lenWidth (fun s => ((s.data.length : ℚ)))
    (fun _ => rfl) 5 "ab cd ef"

/-- A caller-supplied line: text plus a style token string, as in the
`{"text": ..., "style": ...}` dictionaries of all three scripts. -/
structure StyledLine where
  text : String
  style : String
deriving DecidableEq

/-- Fixed per-style line heights of `create_verse_overlay.py` (lines 90–99):
highlight → 90, reference → 40, anything else → 50. -/
def overlayLineHeight (style : String) : ℤ :=
  if style = "highlight" then 90 else if style = "reference" then 40 else 50

/-- `total_text_height` of `create_verse_overlay.py` (lines 87–104):
sum of per-line heights plus `line_spacing * (len(text_lines) - 1)` with
`line_spacing = 20`.  For zero lines this is `-20`. -/
def overlayTotalTextHeight (lines : List StyledLine) : ℤ :=
  (lines.map (fun l => overlayLineHeight l.style)).sum
    + 20 * ((lines.length : ℤ) - 1)

/-- `text_y = (img.height - total_text_height) / 2` of
`create_verse_overlay.py` line 107 — Python float division, no clamp. -/
def overlayStartY (imgHeight : ℤ) (lines : List StyledLine) : ℚ :=
  ((imgHeight : ℚ) - (overlayTotalTextHeight lines : ℚ)) / 2

/-- Starting `current_y` of `draw_text_lines` (`create_social_graphic.py`
lines 27–29): `(image_height - total) // 2`, raised to `image_height // 10`
when below it.  Python `//` on ints is floor division, `Int.fdiv`. -/
def socialStartY (imageHeight total : ℤ) : ℤ :=
  let y := (imageHeight - total).fdiv 2
  if y < imageHeight.fdiv 10 then imageHeight.fdiv 10 else y

/-- C3 counterexample: two `normal` lines on a 100-pixel-high canvas give
`total_text_height = 120 > 100`, and `create_verse_overlay` places the
block at `y = -10`: negative, not clamped to `100 / 10`. -/
theorem layout_clamp_counterexample :
    (100 : ℤ) < overlayTotalTextHeight [⟨"a", "normal"⟩, ⟨"b", "normal"⟩] ∧
    overlayStartY 100 [⟨"a", "normal"⟩, ⟨"b", "normal"⟩] < 0 ∧
    overlayStartY 100 [⟨"a", "normal"⟩, ⟨"b", "normal"⟩] ≠ (100 : ℚ) / 10 := by
  have h : overlayTotalTextHeight [⟨"a", "normal"⟩, ⟨"b", "normal"⟩] = 120 := by
    decide
  refine ⟨by decide, ?_, ?_⟩ <;> · unfold overlayStartY; rw [h]; norm_num

/-- C3 amended: `draw_text_lines` (create_social_graphic.py) clamps the
starting y to at least `H // 10` — it is never negative and equals `H // 10`
whenever the block is taller than the canvas — but `create_verse_overlay`
uses the unclamped `(H - total) / 2`, which is negative whenever the text
block is taller than the image. -/
theorem layout_vertical_clamp (H total : ℤ) (lines : List StyledLine)
    (hH : 0 ≤ H) :
    (H.fdiv 10 ≤ socialStartY H total ∧ 0 ≤ socialStartY H total ∧
      (H < total → socialStartY H total = H.fdiv 10)) ∧
    (H < overlayTotalTextHeight lines → overlayStartY H lines < 0) := by
  have hd : 0 ≤ H.fdiv 10 := Int.fdiv_nonneg hH (by norm_num)
  constructor
  · unfold socialStartY
    by_cases hc : (H - total).fdiv 2 < H.fdiv 10
    · rw [if_pos hc]
      exact ⟨le_refl _, hd, fun _ => rfl⟩
    · rw [if_neg hc]
      push_neg at hc
      refine ⟨hc, le_trans hd hc, fun hlt => ?_⟩
      have hneg : (H - total).fdiv 2 < 0 := by
        rw [Int.fdiv_eq_ediv _ (by norm_num : (0 : ℤ) ≤ 2)]
        exact Int.ediv_neg' (by omega) (by norm_num)
      omega
  · intro hlt
    unfold overlayStartY
    apply div_neg_of_neg_of_pos _ (by norm_num)
    rw [sub_neg]
    exact_mod_cast hlt

/-- C3 witness: canvas height 100 with a 120-tall block — `draw_text_lines`
clamps to `10 = 100 // 10`, the overlay's start is negative. -/
theorem layout_vertical_clamp_witness :
    (0 : ℤ) ≤ 100 ∧
    (((100 : ℤ).fdiv 10 ≤ socialStartY 100 120 ∧
        0 ≤ socialStartY 100 120 ∧
        ((100 : ℤ) < 120 → socialStartY 100 120 = (100 : ℤ).fdiv 10)) ∧
      ((100 : ℤ) < overlayTotalTextHeight [⟨"a", "normal"⟩, ⟨"b", "normal"⟩] →
        overlayStartY 100 [⟨"a", "normal"⟩, ⟨"b", "normal"⟩] < 0)) :=
  ⟨by decide,
    layout_vertical_clamp 100 120 [⟨"a", "normal"⟩, ⟨"b", "normal"⟩] (by decide)⟩

/-! ### Font loading (`create_social_graphic.py`, `load_fonts`) -/

/-- The three role fonts returned by `load_fonts`: `(file name, size)` for
`normal`, `highlight` and `reference`. -/
structure FontAssignment where
  normal : String × ℕ
  highlight : String × ℕ
  reference : String × ℕ
deriving DecidableEq

/-- The fallback system fonts of `load_fonts` (lines 60–62), used when the
font directory is missing. -/
def fallbackFonts : FontAssignment :=
  ⟨("arial.ttf", 48), ("arialbd.ttf", 60), ("arial.ttf", 36)⟩

/-- The keys of the `font_files` table (lines 68–84). -/
def knownStyles : List String := ["elegant", "modern", "bold"]

/-- The `font_files` and `font_sizes` tables of `load_fonts` (lines 68–90),
combined.  Only reached for members of `knownStyles`; the final branch is
the `"bold"` row. -/
def themedFonts (style : String) : FontAssignment :=
  if style = "elegant" then
    ⟨("Sacramento-Regular.ttf", 72), ("SeaportScript-Regular.otf", 90),
      ("DMSans-Regular.ttf", 48)⟩
  else if style = "modern" then
    ⟨("RedHatDisplay-Regular.ttf", 48), ("TiltWarp-Regular.ttf", 56),
      ("DMSans-Regular.ttf", 36)⟩
  else
    ⟨("Arial_Bold.ttf", 48), ("Impact.ttf", 56), ("DMSans-Bold.ttf", 36)⟩

/-- `load_fonts` (`create_social_graphic.py` lines 55–105).  The filesystem
outcomes are explicit parameters: `dirExists` is `os.path.isdir(base_path)`,
`fallbackOk` is whether the system Arial fonts open (lines 59–66), and
`themedOk` is whether every themed font file opens (lines 98–104).  Note the
missing-directory branch returns before the `"Unknown style"` check. -/
def load_fonts (dirExists fallbackOk themedOk : Bool) (style : String) :
    Except String FontAssignment :=
  if !dirExists then
    if fallbackOk then .ok fallbackFonts
    else
      .error "Font directory not found and fallback system fonts failed to load."
  else if style ∈ knownStyles then
    if themedOk then .ok (themedFonts style)
    else .error "font file failed to load"
  else .error ("Unknown style: " ++ style)

/-- C10: when the font directory is missing and the system fallback fonts
load, `load_fonts` returns the fixed fallback assignment for every style
name whatsoever — including `"neon"`, which is not a recognized style — so
the `"Unknown style"` error is never reached. -/
theorem load_fonts_missing_dir_fallback :
    (∀ (style : String) (themedOk : Bool),
        load_fonts false true themedOk style = .ok fallbackFonts) ∧
    "neon" ∉ knownStyles ∧
    fallbackFonts = ⟨("arial.ttf", 48), ("arialbd.ttf", 60), ("arial.ttf", 36)⟩ :=
  ⟨fun _ _ => rfl, by decide, rfl⟩

/-! ### The `create_verse_overlay` pipeline (`create_verse_overlay.py`) -/

/-- Outcome of `requests.get(image_path, timeout=10)` (overlay line 33,
`app.py` line 446): either the request raises (network failure) or it
returns a response with a status code and body bytes.  `requests.get` does
not raise on non-2xx statuses. -/
inductive HttpOutcome
  | netError
  | response (status : ℕ) (body : List ℕ)

/-- A decoded raster image: its pixel dimensions. -/
structure RawImage where
  width : ℕ
  height : ℕ
deriving DecidableEq

/-- The spec's error taxonomy for the Image Source Loader. -/
inductive LoadError
  | fetchError
  | decodeError
deriving DecidableEq

/-- The remote branch of the image loader (overlay lines 32–36, `app.py`
lines 445–447): a network failure propagates as a fetch error; the response
status is never inspected — its body goes straight to `Image.open`
(modelled by the `decode` parameter), whose failure is a decode error. -/
def loadRemoteImage (decode : List ℕ → Option RawImage) :
    HttpOutcome → Except LoadError RawImage
  | .netError => .error .fetchError
  | .response _ body =>
    match decode body with
    | some img => .ok img
    | none => .error .decodeError

/-- Pillow's `round_aspect` helper inside `Image.thumbnail`:
`max(min(floor(number), ceil(number), key=key), 1)`.  Python's `min` keeps
its first argument on ties, so the floor wins when both errors agree. -/
def roundAspect (q : ℚ) (err : ℤ → ℚ) : ℤ :=
  max (if err ⌊q⌋ ≤ err ⌈q⌉ then ⌊q⌋ else ⌈q⌉) 1

/-- Pillow's `Image.thumbnail((bw, bh), LANCZOS)` size computation, which
the repository delegates to: a no-op when the box already contains the
image; otherwise the long side is pinned to the box and the other dimension
is rounded to the integer whose ratio is nearest the original aspect
(float arithmetic modelled exactly over `ℚ`). -/
def pilThumbnail (img : RawImage) (bw bh : ℕ) : RawImage :=
  if img.width ≤ bw ∧ img.height ≤ bh then img
  else if (img.width : ℚ) / (img.height : ℚ) ≤ (bw : ℚ) / (bh : ℚ) then
    ⟨(roundAspect ((bh : ℚ) * ((img.width : ℚ) / (img.height : ℚ)))
        (fun n =>
          |(img.width : ℚ) / (img.height : ℚ) - (n : ℚ) / (bh : ℚ)|)).toNat,
      bh⟩
  else
    ⟨bw,
      (roundAspect ((bw : ℚ) / ((img.width : ℚ) / (img.height : ℚ)))
        (fun n =>
          if n = 0 then 0
          else |(img.width : ℚ) / (img.height : ℚ) - (bw : ℚ) / (n : ℚ)|)).toNat⟩

/-- The resize step of `create_verse_overlay` (lines 42–46) and
`create_verse_image` (`app.py` lines 449–451): thumbnail into the
`(1200, 800)` box only when a dimension exceeds it. -/
def resizeStep (img : RawImage) : RawImage :=
  if 1200 < img.width ∨ 800 < img.height then pilThumbnail img 1200 800
  else img

/-- Python `str.upper()` restricted to per-character uppercasing, as used on
reference lines (overlay line 123). -/
def pyUpper (s : String) : String :=
  String.mk (s.data.map Char.toUpper)

/-- The text actually measured and drawn for a line (overlay lines 110–128):
reference lines are uppercased first, all others keep their casing. -/
def overlayDrawnText (l : StyledLine) : String :=
  if l.style = "reference" then pyUpper l.text else l.text

/-- A drawn line: its final text and the foreground draw position (overlay
lines 130–143; the shadow pass is the same text at a fixed +2 offset). -/
structure PlacedText where
  text : String
  x : ℚ
  y : ℚ
deriving DecidableEq

/-- The drawing loop of `create_verse_overlay` (lines 110–146).  `width`
models `draw.textlength(text, font)` where the font is selected by the
line's style, so it takes the style token and the drawn text.  Each line is
centered from the measured width of its drawn text and `y` advances by the
style's line height plus the 20-pixel spacing. -/
def overlayPlaceLines (width : String → String → ℚ) (imgWidth : ℕ) :
    ℚ → List StyledLine → List PlacedText
  | _, [] => []
  | y, l :: ls =>
    let t := overlayDrawnText l
    ⟨t, ((imgWidth : ℚ) - width l.style t) / 2, y⟩ ::
      overlayPlaceLines width imgWidth
        (y + (overlayLineHeight l.style : ℚ) + 20) ls

/-- Which fonts the overlay's `try` block ends up with (lines 52–84):
platform fonts for `"elegant"`, the generic Arial set for every other style
string, and `ImageFont.load_default()` for all three roles if opening
fails — never an error. -/
inductive OverlayFontSet
  | elegantSet
  | defaultSet
  | loadDefault
deriving DecidableEq

/-- Font selection of `create_verse_overlay` (lines 52–84): the only style
ever tested is `"elegant"`; unknown styles silently take the default
branch. -/
def overlayFonts (fontsAvailable : Bool) (style : String) : OverlayFontSet :=
  if !fontsAvailable then .loadDefault
  else if style = "elegant" then .elegantSet else .defaultSet

/-- Result of a successful `create_verse_overlay` call: the canvas
dimensions, the font set used, and the drawn lines. -/
structure OverlayResult where
  width : ℕ
  height : ℕ
  fonts : OverlayFontSet
  placed : List PlacedText
deriving DecidableEq

/-- `create_verse_overlay` (lines 14–156), remote-URL branch: load the image
(fetch + decode), downsample into the 1200×800 box when a dimension exceeds
it (lines 42–46), pick fonts by style, compute the unclamped starting `y`,
and draw every line.  Saving always succeeds on a decoded image. -/
def create_verse_overlay (decode : List ℕ → Option RawImage)
    (width : String → String → ℚ) (fontsAvailable : Bool)
    (outcome : HttpOutcome) (lines : List StyledLine) (style : String) :
    Except LoadError OverlayResult :=
  match loadRemoteImage decode outcome with
  | .error e => .error e
  | .ok img0 =>
    let img := resizeStep img0
    let fonts := overlayFonts fontsAvailable style
    let y0 := overlayStartY (img.height : ℤ) lines
    .ok ⟨img.width, img.height, fonts, overlayPlaceLines width img.width y0 lines⟩

/-- A concrete per-style width measure for witnesses. -/
def lenWidth2 : String → String → ℚ := fun _ s => (s.length : ℚ)

/-- A concrete decoder for witnesses: bodies starting with the two JPEG
magic bytes decode to the image whose dimensions follow; everything else is
malformed. -/
def magicDecode : List ℕ → Option RawImage
  | 255 :: 216 :: w :: h :: _ => some ⟨w, h⟩
  | _ => none

/-- C4: every drawn line's measured width — and hence its centered x — is
computed from the text that is actually drawn: for a line whose style
prescribes uppercasing (the `reference` style), that is the uppercased
text, not the original casing. -/
theorem uppercase_before_measure (width : String → String → ℚ)
    (imgWidth : ℕ) (y0 : ℚ) (lines : List StyledLine) (p : PlacedText)
    (hp : p ∈ overlayPlaceLines width imgWidth y0 lines) :
    ∃ l ∈ lines, p.text = overlayDrawnText l ∧
      p.x = ((imgWidth : ℚ) - width l.style (overlayDrawnText l)) / 2 ∧
      (l.style = "reference" → p.text = pyUpper l.text) := by
  revert hp
  induction lines generalizing y0 with
  | nil => intro hp; simp [overlayPlaceLines] at hp
  | cons l ls ih =>
    intro hp
    simp only [overlayPlaceLines, List.mem_cons] at hp
    rcases hp with h | h
    · refine ⟨l, List.mem_cons_self l ls, ?_, ?_, ?_⟩
      · rw [h]
      · rw [h]
      · intro hr
        rw [h]
        simp [overlayDrawnText, hr]
    · obtain ⟨l', hl', h1, h2, h3⟩ := ih _ h
      exact ⟨l', List.mem_cons_of_mem _ hl', h1, h2, h3⟩

/-- C4 witness: the reference line `"John 1:1"` on a 1200-wide canvas is
drawn as `"JOHN 1:1"` and centered from the uppercased width (8 units under
`lenWidth2`, so `x = 596`). -/
theorem uppercase_before_measure_witness :
    ∃ l ∈ [(⟨"John 1:1", "reference"⟩ : StyledLine)],
      (⟨"JOHN 1:1", 596, 0⟩ : PlacedText).text = overlayDrawnText l ∧
      (⟨"JOHN 1:1", 596, 0⟩ : PlacedText).x =
        ((1200 : ℚ) - lenWidth2 l.style (overlayDrawnText l)) / 2 ∧
      (l.style = "reference" →
        (⟨"JOHN 1:1", 596, 0⟩ : PlacedText).text = pyUpper l.text) :=
  uppercase_before_measure lenWidth2 1200 0 [⟨"John 1:1", "reference"⟩]
    ⟨"JOHN 1:1", 596, 0⟩ (by
      have hTxt : overlayDrawnText ⟨"John 1:1", "reference"⟩ = "JOHN 1:1" := by
        decide
      have hLen : (("JOHN 1:1".length : ℕ) : ℚ) = 8 := by
        rw [show "JOHN 1:1".length = 8 from by decide]; norm_num
      simp only [overlayPlaceLines, hTxt, lenWidth2, hLen, List.mem_cons,
        List.not_mem_nil, or_false]
      norm_num)

/-- C5 counterexample: with a decodable remote image, `create_verse_overlay`
called with the unrecognized theme `"neon"` succeeds — the image is opened,
resized and produced with the default font set, no ConfigurationError. -/
theorem unknown_theme_counterexample :
    create_verse_overlay magicDecode lenWidth2 true
        (.response 200 [255, 216, 100, 80]) [] "neon" =
      .ok ⟨100, 80, .defaultSet, []⟩ ∧
    "neon" ∉ knownStyles :=
  ⟨rfl, by decide⟩

/-- C5 amended: only `create_social_graphic.load_fonts` rejects unknown
styles, and only when the font directory exists — it raises
`Unknown style: <name>` before the CLI opens the image; `create_verse_overlay`
never fails on an unknown theme: its result is an error exactly when image
loading fails, regardless of the style string. -/
theorem unknown_theme_paths :
    (∀ (style : String) (fallbackOk themedOk : Bool),
        style ∉ knownStyles →
          load_fonts true fallbackOk themedOk style =
            .error ("Unknown style: " ++ style)) ∧
    (∀ (decode : List ℕ → Option RawImage) (width : String → String → ℚ)
        (fontsAvailable : Bool) (outcome : HttpOutcome)
        (lines : List StyledLine) (style : String) (e : LoadError),
        create_verse_overlay decode width fontsAvailable outcome lines style
            = .error e ↔
          loadRemoteImage decode outcome = .error e) := by
  constructor
  · intro style fallbackOk themedOk h
    simp [load_fonts, h]
  · intro decode width fontsAvailable outcome lines style e
    cases h : loadRemoteImage decode outcome with
    | error e' => simp [create_verse_overlay, h]
    | ok img => simp [create_verse_overlay, h]

/-- C5 witness: `load_fonts` with an existing font directory rejects
`"neon"`, and the overlay's failure condition at a sound fetch is exactly
the loader's. -/
theorem unknown_theme_paths_witness :
    ("neon" ∉ knownStyles ∧
      load_fonts true true true "neon" = .error ("Unknown style: " ++ "neon")) ∧
    (create_verse_overlay magicDecode lenWidth2 true
          (.response 200 [255, 216, 100, 80]) [] "neon" =
        .error .fetchError ↔
      loadRemoteImage magicDecode (.response 200 [255, 216, 100, 80]) =
        .error .fetchError) :=
  ⟨⟨by decide, unknown_theme_paths.1 "neon" true true (by decide)⟩,
    unknown_theme_paths.2 magicDecode lenWidth2 true
      (.response 200 [255, 216, 100, 80]) [] "neon" .fetchError⟩

/-- C6 counterexample: a 404 response whose body is the bytes of `<html>` is
passed to decoding and surfaces as a decode error, not as the fetch error
the claim requires for non-200 statuses. -/
theorem non200_decode_counterexample :
    loadRemoteImage magicDecode (.response 404 [60, 104, 116, 109, 108, 62]) =
      .error .decodeError ∧
    (Except.error LoadError.decodeError : Except LoadError RawImage) ≠
      .error .fetchError :=
  ⟨rfl, fun h => LoadError.noConfusion (Except.error.inj h)⟩

/-- C6 amended: a network failure surfaces as the fetch error, but the HTTP
status is never inspected — a response's body is always handed to decoding,
so a non-200 response with a malformed body surfaces as a decode error. -/
theorem loader_status_ignored (decode : List ℕ → Option RawImage)
    (s₁ s₂ : ℕ) (body : List ℕ) :
    loadRemoteImage decode (.response s₁ body) =
      loadRemoteImage decode (.response s₂ body) ∧
    (decode body = none →
      loadRemoteImage decode (.response s₁ body) = .error .decodeError) ∧
    loadRemoteImage decode .netError = .error .fetchError := by
  refine ⟨rfl, ?_, rfl⟩
  intro h
  simp [loadRemoteImage, h]

/-- C6 amended witness: statuses 404 and 200 with the `<html>` body behave
identically, and the malformed body decodes to a decode error. -/
theorem loader_status_ignored_witness :
    (loadRemoteImage magicDecode (.response 404 [60, 104, 116, 109, 108, 62]) =
        loadRemoteImage magicDecode
          (.response 200 [60, 104, 116, 109, 108, 62]) ∧
      (magicDecode [60, 104, 116, 109, 108, 62] = none →
        loadRemoteImage magicDecode
            (.response 404 [60, 104, 116, 109, 108, 62]) =
          .error .decodeError) ∧
      loadRemoteImage magicDecode .netError = .error .fetchError) :=
  loader_status_ignored magicDecode 404 200 [60, 104, 116, 109, 108, 62]

/-- C8: with any successfully loaded background, rendering with `lines = []`
succeeds and yields the (possibly resized) background with no text drawn —
even though `total_text_height` evaluates to `-20` for zero lines. -/
theorem empty_lines_renders (decode : List ℕ → Option RawImage)
    (width : String → String → ℚ) (fontsAvailable : Bool)
    (outcome : HttpOutcome) (style : String) (img : RawImage)
    (h : loadRemoteImage decode outcome = .ok img) :
    create_verse_overlay decode width fontsAvailable outcome [] style =
      .ok ⟨(resizeStep img).width, (resizeStep img).height,
        overlayFonts fontsAvailable style, []⟩ ∧
    overlayTotalTextHeight [] = -20 := by
  refine ⟨?_, by decide⟩
  simp [create_verse_overlay, h, overlayPlaceLines]

/-- C8 witness: a decodable 300×200 background with `lines = []` renders to
the untouched background with nothing drawn. -/
theorem empty_lines_renders_witness :
    loadRemoteImage magicDecode (.response 200 [255, 216, 300, 200]) =
      .ok ⟨300, 200⟩ ∧
    (create_verse_overlay magicDecode lenWidth2 true
          (.response 200 [255, 216, 300, 200]) [] "elegant" =
        .ok ⟨(resizeStep ⟨300, 200⟩).width, (resizeStep ⟨300, 200⟩).height,
          overlayFonts true "elegant", []⟩ ∧
      overlayTotalTextHeight [] = -20) :=
  ⟨rfl, empty_lines_renders magicDecode lenWidth2 true
    (.response 200 [255, 216, 300, 200]) "elegant" ⟨300, 200⟩ rfl⟩

/-! ### Properties of the thumbnail model (claim C7) -/

theorem one_le_roundAspect (q : ℚ) (err : ℤ → ℚ) : 1 ≤ roundAspect q err := by
  unfold roundAspect
  exact le_max_right _ _

theorem roundAspect_le (q : ℚ) (err : ℤ → ℚ) (n : ℤ) (h1 : 1 ≤ n)
    (hq : q ≤ (n : ℚ)) : roundAspect q err ≤ n := by
  have hc : ⌈q⌉ ≤ n := Int.ceil_le.mpr hq
  have hf : ⌊q⌋ ≤ n := le_trans (Int.floor_le_ceil q) hc
  unfold roundAspect
  exact max_le (by split_ifs with h <;> assumption) h1

theorem roundAspect_near (q : ℚ) (err : ℤ → ℚ) (hq : 0 < q) :
    |(roundAspect q err : ℚ) - q| ≤ 1 := by
  have hfl : |(⌊q⌋ : ℚ) - q| ≤ 1 := by
    rw [abs_le]
    constructor
    · linarith [Int.sub_one_lt_floor q]
    · linarith [Int.floor_le q]
  have hcl : |(⌈q⌉ : ℚ) - q| ≤ 1 := by
    rw [abs_le]
    constructor
    · linarith [Int.le_ceil q]
    · linarith [Int.ceil_lt_add_one q]
  have hceil : 1 ≤ ⌈q⌉ := Int.ceil_pos.mpr hq
  unfold roundAspect
  by_cases hbr : err ⌊q⌋ ≤ err ⌈q⌉
  · rw [if_pos hbr]
    by_cases h1 : 1 ≤ ⌊q⌋
    · rw [max_eq_left h1]
      exact hfl
    · push_neg at h1
      rw [max_eq_right (le_of_lt h1)]
      have hql : q < 1 := by
        have := Int.lt_floor_add_one q
        have h0 : ⌊q⌋ ≤ 0 := by omega
        have h0q : ((⌊q⌋ : ℤ) : ℚ) ≤ 0 := by exact_mod_cast h0
        linarith
      rw [abs_le]
      constructor <;> push_cast <;> linarith
  · rw [if_neg hbr, max_eq_left hceil]
    exact hcl

/-- C7: the resize step never touches an image already inside the 1200×800
box; its output always fits the box, is never an upsample, and — when a
resize happens — pins one side to the box while the other differs from the
exact aspect-preserving value by at most one pixel. -/
theorem thumbnail_bounds_and_aspect (img : RawImage) (hw : 1 ≤ img.width)
    (hh : 1 ≤ img.height) :
    ((img.width ≤ 1200 ∧ img.height ≤ 800) → resizeStep img = img) ∧
    (resizeStep img).width ≤ 1200 ∧ (resizeStep img).height ≤ 800 ∧
    (resizeStep img).width ≤ img.width ∧
    (resizeStep img).height ≤ img.height ∧
    (((resizeStep img).width = img.width ∧
        (resizeStep img).height = img.height) ∨
      ((resizeStep img).height = 800 ∧
        |((resizeStep img).width : ℚ) -
            800 * (img.width : ℚ) / (img.height : ℚ)| ≤ 1) ∨
      ((resizeStep img).width = 1200 ∧
        |((resizeStep img).height : ℚ) -
            1200 * (img.height : ℚ) / (img.width : ℚ)| ≤ 1)) := by
  by_cases hguard : 1200 < img.width ∨ 800 < img.height
  case neg =>
    have hres : resizeStep img = img := by
      unfold resizeStep
      rw [if_neg hguard]
    push_neg at hguard
    rw [hres]
    exact ⟨fun _ => rfl, hguard.1, hguard.2, le_refl _, le_refl _,
      Or.inl ⟨rfl, rfl⟩⟩
  case pos =>
    have hres : resizeStep img = pilThumbnail img 1200 800 := by
      unfold resizeStep
      rw [if_pos hguard]
    have hbox : ¬(img.width ≤ 1200 ∧ img.height ≤ 800) := by omega
    have hw0 : (0 : ℚ) < (img.width : ℚ) := by exact_mod_cast hw
    have hh0 : (0 : ℚ) < (img.height : ℚ) := by exact_mod_cast hh
    refine ⟨fun hcon => absurd hcon hbox, ?_⟩
    by_cases hbr :
        (img.width : ℚ) / (img.height : ℚ) ≤ (1200 : ℚ) / (800 : ℚ)
    · -- landscape-in-box branch: height pinned to 800
      have hpil : pilThumbnail img 1200 800 =
          ⟨(roundAspect
              ((800 : ℚ) * ((img.width : ℚ) / (img.height : ℚ)))
              (fun n =>
                |(img.width : ℚ) / (img.height : ℚ) -
                  (n : ℚ) / (800 : ℚ)|)).toNat, 800⟩ := by
        have hbrc : (img.width : ℚ) / (img.height : ℚ) ≤
            ((1200 : ℕ) : ℚ) / ((800 : ℕ) : ℚ) := by push_cast; exact hbr
        unfold pilThumbnail
        rw [if_neg hbox, if_pos hbrc]
        norm_num
      have hnat : img.width * 800 ≤ 1200 * img.height := by
        have := (div_le_div_iff₀ hh0 (by norm_num : (0 : ℚ) < 800)).mp hbr
        exact_mod_cast this
      have h800 : 800 ≤ img.height := by omega
      have h800q : (800 : ℚ) ≤ (img.height : ℚ) := by exact_mod_cast h800
      have hq0 : 0 < (800 : ℚ) * ((img.width : ℚ) / (img.height : ℚ)) :=
        mul_pos (by norm_num) (div_pos hw0 hh0)
      have hq1200 :
          (800 : ℚ) * ((img.width : ℚ) / (img.height : ℚ)) ≤ 1200 := by
        calc (800 : ℚ) * ((img.width : ℚ) / (img.height : ℚ))
            ≤ 800 * ((1200 : ℚ) / 800) :=
              mul_le_mul_of_nonneg_left hbr (by norm_num)
          _ = 1200 := by norm_num
      have hqw :
          (800 : ℚ) * ((img.width : ℚ) / (img.height : ℚ)) ≤
            (img.width : ℚ) := by
        rw [← mul_div_assoc, div_le_iff₀ hh0]
        calc (800 : ℚ) * (img.width : ℚ)
            = (img.width : ℚ) * 800 := mul_comm _ _
          _ ≤ (img.width : ℚ) * (img.height : ℚ) :=
              mul_le_mul_of_nonneg_left h800q (le_of_lt hw0)
      rw [hres, hpil]
      set r := roundAspect
        ((800 : ℚ) * ((img.width : ℚ) / (img.height : ℚ)))
        (fun n =>
          |(img.width : ℚ) / (img.height : ℚ) - (n : ℚ) / (800 : ℚ)|)
        with hrdef
      have hr1 : 1 ≤ r := one_le_roundAspect _ _
      have hr1200 : r ≤ 1200 :=
        roundAspect_le _ _ 1200 (by norm_num) (by exact_mod_cast hq1200)
      have hrw : r ≤ (img.width : ℤ) :=
        roundAspect_le _ _ _ (by exact_mod_cast hw) hqw
      have hcast : ((r.toNat : ℕ) : ℚ) = (r : ℚ) := by
        have := Int.toNat_of_nonneg (le_trans zero_le_one hr1)
        exact_mod_cast this
      refine ⟨Int.toNat_le.mpr hr1200, by norm_num,
        Int.toNat_le.mpr hrw, by exact_mod_cast h800, ?_⟩
      refine Or.inr (Or.inl ⟨rfl, ?_⟩)
      show |((r.toNat : ℕ) : ℚ) -
        800 * (img.width : ℚ) / (img.height : ℚ)| ≤ 1
      rw [hcast, mul_div_assoc]
      exact roundAspect_near _ _ hq0
    · -- portrait branch: width pinned to 1200
      push_neg at hbr
      have hpil : pilThumbnail img 1200 800 =
          ⟨1200,
            (roundAspect
              ((1200 : ℚ) / ((img.width : ℚ) / (img.height : ℚ)))
              (fun n =>
                if n = 0 then 0
                else
                  |(img.width : ℚ) / (img.height : ℚ) -
                    (1200 : ℚ) / (n : ℚ)|)).toNat⟩ := by
        have hbrc : ((1200 : ℕ) : ℚ) / ((800 : ℕ) : ℚ) <
            (img.width : ℚ) / (img.height : ℚ) := by push_cast; exact hbr
        unfold pilThumbnail
        rw [if_neg hbox, if_neg (not_le.mpr hbrc)]
        norm_num
      have hnat : 1200 * img.height < img.width * 800 := by
        have := (div_lt_div_iff₀ (by norm_num : (0 : ℚ) < 800) hh0).mp hbr
        exact_mod_cast this
      have h1200 : 1200 ≤ img.width := by omega
      have h1200q : (1200 : ℚ) ≤ (img.width : ℚ) := by exact_mod_cast h1200
      have haspect : 0 < (img.width : ℚ) / (img.height : ℚ) :=
        div_pos hw0 hh0
      have hq0 :
          0 < (1200 : ℚ) / ((img.width : ℚ) / (img.height : ℚ)) :=
        div_pos (by norm_num) haspect
      have hqeq :
          (1200 : ℚ) / ((img.width : ℚ) / (img.height : ℚ)) =
            1200 * (img.height : ℚ) / (img.width : ℚ) :=
        div_div_eq_mul_div _ _ _
      have hq800 :
          (1200 : ℚ) / ((img.width : ℚ) / (img.height : ℚ)) ≤ 800 := by
        rw [hqeq, div_le_iff₀ hw0]
        have := hnat
        have hcast2 : (1200 : ℚ) * (img.height : ℚ) ≤
            (img.width : ℚ) * 800 := by exact_mod_cast le_of_lt hnat
        linarith [hcast2]
      have hqh :
          (1200 : ℚ) / ((img.width : ℚ) / (img.height : ℚ)) ≤
            (img.height : ℚ) := by
        rw [hqeq, div_le_iff₀ hw0]
        calc (1200 : ℚ) * (img.height : ℚ)
            ≤ (img.width : ℚ) * (img.height : ℚ) :=
              mul_le_mul_of_nonneg_right h1200q (le_of_lt hh0)
          _ = (img.height : ℚ) * (img.width : ℚ) := mul_comm _ _
      rw [hres, hpil]
      set r := roundAspect
        ((1200 : ℚ) / ((img.width : ℚ) / (img.height : ℚ)))
        (fun n =>
          if n = 0 then 0
          else
            |(img.width : ℚ) / (img.height : ℚ) - (1200 : ℚ) / (n : ℚ)|)
        with hrdef
      have hr1 : 1 ≤ r := one_le_roundAspect _ _
      have hr800 : r ≤ 800 :=
        roundAspect_le _ _ 800 (by norm_num) (by exact_mod_cast hq800)
      have hrh : r ≤ (img.height : ℤ) :=
        roundAspect_le _ _ _ (by exact_mod_cast hh) hqh
      have hcast : ((r.toNat : ℕ) : ℚ) = (r : ℚ) := by
        have := Int.toNat_of_nonneg (le_trans zero_le_one hr1)
        exact_mod_cast this
      refine ⟨by norm_num, Int.toNat_le.mpr hr800,
        by exact_mod_cast h1200, Int.toNat_le.mpr hrh, ?_⟩
      refine Or.inr (Or.inr ⟨rfl, ?_⟩)
      show |((r.toNat : ℕ) : ℚ) -
        1200 * (img.height : ℚ) / (img.width : ℚ)| ≤ 1
      rw [hcast, ← hqeq]
      exact roundAspect_near _ _ hq0

/-- C7 witness: the 2400×1600 image (exactly 3:2, both sides over the box)
satisfies every clause of the thumbnail property. -/
theorem thumbnail_bounds_and_aspect_witness :
    1 ≤ (⟨2400, 1600⟩ : RawImage).width ∧
    1 ≤ (⟨2400, 1600⟩ : RawImage).height ∧
    (((⟨2400, 1600⟩ : RawImage).width ≤ 1200 ∧
        (⟨2400, 1600⟩ : RawImage).height ≤ 800) →
      resizeStep ⟨2400, 1600⟩ = ⟨2400, 1600⟩) ∧
    (resizeStep ⟨2400, 1600⟩).width ≤ 1200 ∧
    (resizeStep ⟨2400, 1600⟩).height ≤ 800 ∧
    (resizeStep ⟨2400, 1600⟩).width ≤ (⟨2400, 1600⟩ : RawImage).width ∧
    (resizeStep ⟨2400, 1600⟩).height ≤ (⟨2400, 1600⟩ : RawImage).height ∧
    (((resizeStep ⟨2400, 1600⟩).width = (⟨2400, 1600⟩ : RawImage).width ∧
        (resizeStep ⟨2400, 1600⟩).height =
          (⟨2400, 1600⟩ : RawImage).height) ∨
      ((resizeStep ⟨2400, 1600⟩).height = 800 ∧
        |((resizeStep ⟨2400, 1600⟩).width : ℚ) -
            800 * ((2400 : ℕ) : ℚ) / ((1600 : ℕ) : ℚ)| ≤ 1) ∨
      ((resizeStep ⟨2400, 1600⟩).width = 1200 ∧
        |((resizeStep ⟨2400, 1600⟩).height : ℚ) -
            1200 * ((1600 : ℕ) : ℚ) / ((2400 : ℕ) : ℚ)| ≤ 1)) := by
  have h := thumbnail_bounds_and_aspect ⟨2400, 1600⟩ (by decide) (by decide)
  exact ⟨by decide, by decide, h.1, h.2.1, h.2.2.1, h.2.2.2.1,
    h.2.2.2.2.1, h.2.2.2.2.2⟩

end VerseImage
